import Mathlib

/-
Verification of the invoice computation-and-dispatch pipeline of
01-invoice-srp-ocp.cpp: LineItem, the IDiscountStrategy implementations
PercentOff and FlatOff, the ITaxRule implementation GST18, the
SimpleTextRenderer, and InvoiceService::process.

Modelling conventions:
- C++ `double` values are modelled as exact rationals (ℚ); the arithmetic
  of the pipeline (sums, differences, products by constants) is embedded
  exactly.
- C++ `int` values are modelled as ℤ.
- The textual formatting of a double by `operator<<` on an ostream is
  standard-library behaviour, not code of this repository, so the renderer
  and `process` are parameterized over that formatter (`fmt : ℚ → String`).
  `std::to_string(double)`, whose output shape matters to the audit line, is
  modelled concretely by `toStringFixed6` below.
- The collaborator side effects (IEmailService::send, ILogger::log) are
  modelled as an explicit trace: `process` returns the rendered content
  together with the list of collaborator invocations in program order.
-/

namespace Invoice

/-- Members of `struct LineItem`: `string sku`, `int quantity`,
`double unitPrice`. -/
structure LineItem where
  sku : String
  quantity : Int
  unitPrice : ℚ
deriving DecidableEq

/-- The two concrete implementations of `IDiscountStrategy` in the file:
`PercentOff` stores a `double percent`; `FlatOff` stores an `int amount`. -/
inductive IDiscountStrategy where
  | PercentOff (percent : ℚ)
  | FlatOff (amount : Int)
deriving DecidableEq

/-- Virtual dispatch of `IDiscountStrategy::compute(double subtotal)`:
`PercentOff::compute` returns `subtotal * (percent / 100)`;
`FlatOff::compute` ignores its argument and returns the stored `int amount`
(converted to double on return). -/
def IDiscountStrategy.compute : IDiscountStrategy → ℚ → ℚ
  | .PercentOff percent, subtotal => subtotal * (percent / 100)
  | .FlatOff amount, _ => (amount : ℚ)

/-- Truncation of a rational toward zero, the C++ conversion applied when a
`double` argument is passed to a parameter of type `int`. -/
def ratTruncToInt (q : ℚ) : Int :=
  if 0 ≤ q then ⌊q⌋ else ⌈q⌉

/-- Constructing `FlatOff(a)` with a `double` argument: the constructor
parameter has type `int`, so C++ implicitly converts the argument by
truncation toward zero before it is stored. -/
def FlatOff.ofDouble (a : ℚ) : IDiscountStrategy :=
  .FlatOff (ratTruncToInt a)

/-- The single concrete implementation of `ITaxRule` in the file. -/
inductive ITaxRule where
  | GST18
deriving DecidableEq

/-- Virtual dispatch of `ITaxRule::compute(double base)`:
`GST18::compute` returns `base * 0.18`. -/
def ITaxRule.compute : ITaxRule → ℚ → ℚ
  | .GST18, base => base * 0.18

/-- One item line written by the loop body of `SimpleTextRenderer::render`:
`out << it.sku << " x" << it.quantity << " @ " << it.unitPrice << "\n"`.
The successive `<<` calls append left to right; string append is
associative, so the line is the concatenation of the pieces in order. -/
def itemLine (fmt : ℚ → String) (it : LineItem) : String :=
  it.sku ++ " x" ++ toString it.quantity ++ " @ " ++ fmt it.unitPrice ++ "\n"

/-- `SimpleTextRenderer::render`: header line, one line per item in input
order, then the four summary lines, every line terminated by a newline.
`fmt` is the ostream formatting of a `double` (standard-library behaviour,
see the header comment). -/
def SimpleTextRenderer.render (fmt : ℚ → String) (items : List LineItem)
    (subtotal discount tax grand : ℚ) : String :=
  let out := "INVOICE\n"
  let out := items.foldl (fun acc it => acc ++ itemLine fmt it) out
  let out := out ++ "Subtotal: " ++ fmt subtotal ++ "\n"
  let out := out ++ "Discounts: " ++ fmt discount ++ "\n"
  let out := out ++ "Tax: " ++ fmt tax ++ "\n"
  let out := out ++ "Total: " ++ fmt grand ++ "\n"
  out

/-- The value `round(q * 10^6)`: `std::to_string(double)` prints the value
with exactly six digits after the decimal point (printf `%f`), rounding to
the nearest such decimal. -/
def scaled6 (q : ℚ) : Int :=
  round (q * 1000000)

/-- The six digits after the decimal point produced by `toStringFixed6`. -/
def fracDigits6 (q : ℚ) : List Char :=
  let m := (scaled6 q).natAbs % 1000000
  [Nat.digitChar (m / 100000 % 10), Nat.digitChar (m / 10000 % 10),
   Nat.digitChar (m / 1000 % 10), Nat.digitChar (m / 100 % 10),
   Nat.digitChar (m / 10 % 10), Nat.digitChar (m % 10)]

/-- Model of `std::to_string(double)`: optional minus sign, the integer
part, a decimal point, then exactly six fractional digits. -/
def toStringFixed6 (q : ℚ) : String :=
  (if scaled6 q < 0 then "-" else "")
    ++ toString ((scaled6 q).natAbs / 1000000) ++ "." ++ String.mk (fracDigits6 q)

/-- One observable collaborator invocation made by `InvoiceService::process`:
either `emailer->send(email, content)` or `logger->log(msg)`. -/
inductive Event where
  | send (email content : String)
  | log (msg : String)
deriving DecidableEq

/-- Whether an event is an `IEmailService::send` invocation. -/
def Event.isSend : Event → Bool
  | .send _ _ => true
  | .log _ => false

/-- Whether an event is an `ILogger::log` invocation. -/
def Event.isLog : Event → Bool
  | .send _ _ => false
  | .log _ => true

/-- The subtotal loop of `InvoiceService::process`:
`subtotal = 0.0; for (auto &it : items) subtotal += it.unitPrice * it.quantity;`. -/
def subtotalOf (items : List LineItem) : ℚ :=
  items.foldl (fun acc it => acc + it.unitPrice * (it.quantity : ℚ)) 0

/-- The discount loop of `InvoiceService::process`:
`discount_total = 0.0; for (auto &d : discounts) discount_total += d->compute(subtotal);`.
Every strategy is applied to the same `subtotal` argument. -/
def discountTotalOf (discounts : List IDiscountStrategy) (subtotal : ℚ) : ℚ :=
  discounts.foldl (fun acc d => acc + d.compute subtotal) 0

/-- The numeric intermediates of one `process` call.  `taxableBase` names
the subexpression `subtotal - discount_total` that is passed to
`taxRule->compute` on line 175. -/
structure ProcessValues where
  subtotal : ℚ
  discount_total : ℚ
  taxableBase : ℚ
  tax : ℚ
  grand : ℚ
deriving DecidableEq

/-- The numeric part of `InvoiceService::process` (lines 167-176):
subtotal, discount total, tax on `subtotal - discount_total`, and
`grand = subtotal - discount_total + tax`. -/
def processValues (taxRule : ITaxRule) (items : List LineItem)
    (discounts : List IDiscountStrategy) : ProcessValues :=
  let subtotal := subtotalOf items
  let discount_total := discountTotalOf discounts subtotal
  let tax := taxRule.compute (subtotal - discount_total)
  let grand := subtotal - discount_total + tax
  ⟨subtotal, discount_total, subtotal - discount_total, tax, grand⟩

/-- The audit line of `InvoiceService::process` (line 182):
`"Invoice processed for " + email + " total=" + to_string(grand)`. -/
def auditMessage (email : String) (grand : ℚ) : String :=
  "Invoice processed for " ++ email ++ " total=" ++ toStringFixed6 grand

/-- `InvoiceService::process` (lines 163-185): compute the numeric values,
render the content, send it when `email` is non-empty (`!email.empty()`),
then unconditionally log the audit line; the rendered content is returned.
The second component is the trace of collaborator invocations in program
order. -/
def process (fmt : ℚ → String) (taxRule : ITaxRule) (items : List LineItem)
    (discounts : List IDiscountStrategy) (email : String) : String × List Event :=
  let v := processValues taxRule items discounts
  let content := SimpleTextRenderer.render fmt items v.subtotal v.discount_total v.tax v.grand
  let events := (if email = "" then [] else [Event.send email content])
    ++ [Event.log (auditMessage email v.grand)]
  (content, events)

end Invoice

namespace Invoice

theorem foldl_add_map {α : Type} (f : α → ℚ) (l : List α) (init : ℚ) :
    l.foldl (fun acc x => acc + f x) init = init + (l.map f).sum := by
  induction l generalizing init with
  | nil => simp
  | cons a t ih => simp [List.foldl_cons, ih, add_assoc]

theorem string_foldl_append (l : List String) (init : String) :
    l.foldl (fun acc s => acc ++ s) init = init ++ l.foldl (fun acc s => acc ++ s) "" := by
  induction l generalizing init with
  | nil => simp [String.append_empty]
  | cons a t ih =>
    rw [List.foldl_cons, List.foldl_cons, ih (init ++ a), ih ("" ++ a),
      String.empty_append, String.append_assoc]

theorem join_cons (s : String) (l : List String) :
    String.join (s :: l) = s ++ String.join l := by
  show List.foldl (fun acc x => acc ++ x) ("" ++ s) l = _
  rw [string_foldl_append, String.empty_append]
  rfl

theorem join_nil : String.join [] = "" := rfl

theorem join_append (l1 l2 : List String) :
    String.join (l1 ++ l2) = String.join l1 ++ String.join l2 := by
  induction l1 with
  | nil => rw [List.nil_append, join_nil, String.empty_append]
  | cons a t ih => rw [List.cons_append, join_cons, ih, join_cons, String.append_assoc]

theorem foldl_append_map {α : Type} (g : α → String) (l : List α) (init : String) :
    l.foldl (fun acc x => acc ++ g x) init = init ++ String.join (l.map g) := by
  induction l generalizing init with
  | nil => simp [join_nil, String.append_empty]
  | cons a t ih => rw [List.foldl_cons, ih, List.map_cons, join_cons, String.append_assoc]

theorem digitChar_mod_isDigit (x : Nat) : (Nat.digitChar (x % 10)).isDigit = true := by
  have h : x % 10 < 10 := Nat.mod_lt _ (by norm_num)
  interval_cases h2 : (x % 10) <;> decide

/-- C1: discountTotal is the sum of each strategy applied to the original
subtotal; appending a second strategy never changes the existing total. -/
theorem discountTotal_additive (taxRule : ITaxRule) (items : List LineItem)
    (discounts : List IDiscountStrategy) :
    (processValues taxRule items discounts).discount_total
      = (discounts.map (fun d => d.compute (subtotalOf items))).sum ∧
    ∀ d2 : IDiscountStrategy,
      (processValues taxRule items (discounts ++ [d2])).discount_total
        = (processValues taxRule items discounts).discount_total
          + d2.compute (subtotalOf items) := by
  have hsum : ∀ ds : List IDiscountStrategy,
      discountTotalOf ds (subtotalOf items)
        = (ds.map (fun d => d.compute (subtotalOf items))).sum := by
    intro ds
    unfold discountTotalOf
    rw [foldl_add_map (fun d : IDiscountStrategy => d.compute (subtotalOf items)) ds 0, zero_add]
  constructor
  · simpa [processValues] using hsum discounts
  · intro d2
    simp [processValues, hsum, List.map_append, List.sum_append]

/-- C2: taxableBase = subtotal - discountTotal (unclamped, can be negative),
tax = taxRule.compute taxableBase, grandTotal = subtotal - discountTotal + tax. -/
theorem processValues_identities (taxRule : ITaxRule) (items : List LineItem)
    (discounts : List IDiscountStrategy) :
    (processValues taxRule items discounts).taxableBase
      = (processValues taxRule items discounts).subtotal
        - (processValues taxRule items discounts).discount_total ∧
    (processValues taxRule items discounts).tax
      = taxRule.compute (processValues taxRule items discounts).taxableBase ∧
    (processValues taxRule items discounts).grand
      = (processValues taxRule items discounts).subtotal
        - (processValues taxRule items discounts).discount_total
        + (processValues taxRule items discounts).tax ∧
    (processValues .GST18 [⟨"A", 1, 100⟩] [.FlatOff 1000]).taxableBase < 0 := by
  refine ⟨rfl, rfl, rfl, ?_⟩
  simp [processValues, subtotalOf, discountTotalOf, IDiscountStrategy.compute]
  norm_num

/-- C3: subtotal is the sum of quantity times unit price, invariant under
permutation of the item sequence. -/
theorem subtotal_sum_perm (taxRule : ITaxRule) (items items2 : List LineItem)
    (discounts : List IDiscountStrategy) (h : items.Perm items2) :
    (processValues taxRule items discounts).subtotal
      = (items.map (fun it => (it.quantity : ℚ) * it.unitPrice)).sum ∧
    (processValues taxRule items discounts).subtotal
      = (processValues taxRule items2 discounts).subtotal := by
  have hs : ∀ l : List LineItem,
      subtotalOf l = (l.map (fun it => (it.quantity : ℚ) * it.unitPrice)).sum := by
    intro l
    unfold subtotalOf
    rw [foldl_add_map (fun it : LineItem => it.unitPrice * (it.quantity : ℚ)) l 0, zero_add]
    congr 1
    simp [mul_comm]
  refine ⟨by simpa [processValues] using hs items, ?_⟩
  have := List.Perm.sum_eq (h.map (fun it => (it.quantity : ℚ) * it.unitPrice))
  simp [processValues, hs, this]

theorem subtotal_sum_perm_witness :
    (processValues .GST18 [⟨"ITEM-001", 3, 100⟩, ⟨"ITEM-002", 1, 250⟩] []).subtotal
      = (([⟨"ITEM-001", 3, 100⟩, ⟨"ITEM-002", 1, 250⟩] : List LineItem).map
          (fun it => (it.quantity : ℚ) * it.unitPrice)).sum ∧
    (processValues .GST18 [⟨"ITEM-001", 3, 100⟩, ⟨"ITEM-002", 1, 250⟩] []).subtotal
      = (processValues .GST18 [⟨"ITEM-002", 1, 250⟩, ⟨"ITEM-001", 3, 100⟩] []).subtotal :=
  subtotal_sum_perm .GST18 _ _ []
    (List.Perm.swap (⟨"ITEM-002", 1, 250⟩ : LineItem) (⟨"ITEM-001", 3, 100⟩ : LineItem) [])

/-- C4: the fixed-rate tax rule returns base times 18 percent for every
base, and a negative base yields negative tax. -/
theorem gst18_compute (base : ℚ) :
    ITaxRule.GST18.compute base = base * (18 / 100) ∧
    (base < 0 → ITaxRule.GST18.compute base < 0) := by
  constructor
  · show base * 0.18 = base * (18 / 100)
    norm_num
  · intro h
    show base * 0.18 < 0
    exact mul_neg_of_neg_of_pos h (by norm_num)

theorem gst18_compute_witness :
    ITaxRule.GST18.compute (-900) = (-900) * (18 / 100) ∧
    ITaxRule.GST18.compute (-900) < 0 :=
  ⟨(gst18_compute (-900)).1, (gst18_compute (-900)).2 (by norm_num)⟩

/-- C5 counterexample: FlatOff constructed with the decimal amount 1/2
stores the truncated int 0, so compute does not return the amount. -/
theorem flatOff_decimal_cex :
    (FlatOff.ofDouble (1 / 2)).compute 100 ≠ (1 / 2 : ℚ) := by
  have h : ratTruncToInt (1 / 2) = 0 := by
    rw [ratTruncToInt, if_pos (by norm_num : (0 : ℚ) ≤ 1 / 2)]
    norm_num
  rw [show (FlatOff.ofDouble (1 / 2)).compute 100 = ((ratTruncToInt (1 / 2) : Int) : ℚ) from rfl, h]
  norm_num

/-- C5 amended: for every integer amount, FlatOff's compute returns the
amount unconditionally, ignoring the subtotal; a decimal constructor
argument is first truncated toward zero; no upper bound is enforced. -/
theorem flatOff_compute (a : Int) (s : ℚ) :
    (IDiscountStrategy.FlatOff a).compute s = (a : ℚ) ∧
    (∀ q : ℚ, (FlatOff.ofDouble q).compute s = (ratTruncToInt q : ℚ)) ∧
    (IDiscountStrategy.FlatOff 1000).compute 100 = 1000 ∧ (100 : ℚ) < 1000 :=
  ⟨rfl, fun _ => rfl, rfl, by norm_num⟩

/-- C6: send happens iff the recipient is non-empty and at most once; log
happens exactly once, last, with the audit message. -/
theorem process_events (fmt : ℚ → String) (taxRule : ITaxRule)
    (items : List LineItem) (discounts : List IDiscountStrategy) (email : String) :
    ((process fmt taxRule items discounts email).2.countP Event.isSend
      = if email = "" then 0 else 1) ∧
    (process fmt taxRule items discounts email).2.countP Event.isSend ≤ 1 ∧
    (process fmt taxRule items discounts email).2.countP Event.isLog = 1 ∧
    (process fmt taxRule items discounts email).2.getLast?
      = some (Event.log (auditMessage email (processValues taxRule items discounts).grand)) := by
  by_cases h : email = "" <;>
    simp [process, h, Event.isSend, Event.isLog, List.countP_cons, List.countP_nil]

/-- C7: the returned text is a deterministic function of items, discount
strategies, and recipient address. -/
theorem process_deterministic (fmt : ℚ → String) (taxRule : ITaxRule)
    (items1 items2 : List LineItem) (ds1 ds2 : List IDiscountStrategy)
    (email1 email2 : String) (h1 : items1 = items2) (h2 : ds1 = ds2)
    (h3 : email1 = email2) :
    (process fmt taxRule items1 ds1 email1).1 = (process fmt taxRule items2 ds2 email2).1 := by
  subst h1 h2 h3
  rfl

theorem process_deterministic_witness :
    (process toStringFixed6 .GST18 [⟨"ITEM-001", 3, 100⟩] [.PercentOff 10] "customer@example.com").1
      = (process toStringFixed6 .GST18 [⟨"ITEM-001", 3, 100⟩] [.PercentOff 10] "customer@example.com").1 :=
  process_deterministic toStringFixed6 .GST18 _ _ _ _ _ _ rfl rfl rfl

/-- C8: the rendered text is exactly the header line, one line per item in
input order, then the four summary lines, each line newline-terminated. -/
theorem render_layout (fmt : ℚ → String) (items : List LineItem) (s d t g : ℚ) :
    SimpleTextRenderer.render fmt items s d t g
      = String.join ((("INVOICE"
          :: items.map (fun it => it.sku ++ " x" ++ toString it.quantity ++ " @ " ++ fmt it.unitPrice))
          ++ ["Subtotal: " ++ fmt s, "Discounts: " ++ fmt d,
              "Tax: " ++ fmt t, "Total: " ++ fmt g]).map (fun line => line ++ "\n")) := by
  have hline : itemLine fmt = fun x : LineItem =>
      x.sku ++ (" x" ++ (toString x.quantity ++ (" @ " ++ (fmt x.unitPrice ++ "\n")))) := by
    funext x
    simp only [itemLine, String.append_assoc]
  have hinv : ("INVOICE\n" : String) = "INVOICE" ++ "\n" := by decide
  simp only [SimpleTextRenderer.render]
  rw [foldl_append_map, hline, hinv]
  simp only [List.map_append, List.map_cons, List.map_map, List.map_nil,
    join_append, join_cons, join_nil, Function.comp_def, String.append_assoc,
    String.append_empty]

/-- C9: with subtotal 100 and a single FlatOff(1000) discount, the values
are 1000, -900, -162, -1062, unclamped. -/
theorem flatOff_overdiscount_values (items : List LineItem)
    (h : subtotalOf items = 100) :
    (processValues .GST18 items [.FlatOff 1000]).subtotal = 100 ∧
    (processValues .GST18 items [.FlatOff 1000]).discount_total = 1000 ∧
    (processValues .GST18 items [.FlatOff 1000]).taxableBase = -900 ∧
    (processValues .GST18 items [.FlatOff 1000]).tax = -162 ∧
    (processValues .GST18 items [.FlatOff 1000]).grand = -1062 := by
  simp [processValues, discountTotalOf, IDiscountStrategy.compute, ITaxRule.compute, h]
  norm_num

theorem flatOff_overdiscount_values_witness :
    subtotalOf [⟨"X", 1, 100⟩] = 100 ∧
    ((processValues .GST18 [⟨"X", 1, 100⟩] [.FlatOff 1000]).subtotal = 100 ∧
     (processValues .GST18 [⟨"X", 1, 100⟩] [.FlatOff 1000]).discount_total = 1000 ∧
     (processValues .GST18 [⟨"X", 1, 100⟩] [.FlatOff 1000]).taxableBase = -900 ∧
     (processValues .GST18 [⟨"X", 1, 100⟩] [.FlatOff 1000]).tax = -162 ∧
     (processValues .GST18 [⟨"X", 1, 100⟩] [.FlatOff 1000]).grand = -1062) :=
  ⟨by norm_num [subtotalOf],
   flatOff_overdiscount_values [⟨"X", 1, 100⟩] (by norm_num [subtotalOf])⟩

/-- C10: the audit message is the exact concatenation with the recipient and
the six-decimal-digit rendering of the grand total; with an empty recipient
the fragment "for  total=" appears. -/
theorem audit_line (fmt : ℚ → String) (taxRule : ITaxRule)
    (items : List LineItem) (discounts : List IDiscountStrategy) (email : String) :
    (process fmt taxRule items discounts email).2.getLast?
      = some (Event.log ("Invoice processed for " ++ email ++ " total="
          ++ toStringFixed6 (processValues taxRule items discounts).grand)) ∧
    (process fmt taxRule items discounts "").2.getLast?
      = some (Event.log ("Invoice processed for  total="
          ++ toStringFixed6 (processValues taxRule items discounts).grand)) ∧
    (∀ q : ℚ, (String.mk (fracDigits6 q)).length = 6 ∧
      ∀ c ∈ fracDigits6 q, c.isDigit) := by
  refine ⟨?_, ?_, ?_⟩
  · by_cases h : email = "" <;> simp [process, h, auditMessage]
  · simp [process, auditMessage]
  · intro q
    constructor
    · simp [fracDigits6, String.length]
    · simp [fracDigits6, digitChar_mod_isDigit]

theorem audit_line_witness :
    (process toStringFixed6 .GST18 [] [] "a").2.getLast?
      = some (Event.log ("Invoice processed for " ++ "a" ++ " total="
          ++ toStringFixed6 (processValues .GST18 [] []).grand)) :=
  (audit_line toStringFixed6 .GST18 [] [] "a").1

end Invoice
